import Mathlib

/-
Verification of the CLI glue of the howser document validator
(src/bin/main.rs).  The howser library crate (Document, Prescription,
Validator, the error type) and the external collaborators (clap argument
parsing, the file system, the doogie parser, the toml deserializer) are
modelled as an abstract environment; the functions `run`, `check`,
`validate`, `process_pharmacy_file`, `get_file_contents` and the body of
`main` are translated from the source.
-/

set_option autoImplicit false

/-- Modelled from the spec: the authoring-warning payload produced by
`into_prescription` in the library crate (§7 AuthoringWarning).  Only its
identity matters to the CLI glue, so it carries just its message text. -/
structure SpecWarning where
  info : String
deriving DecidableEq, Repr

/-- Modelled from the spec: `ValidationProblem` is the boxed problem value
(severity, message, location — §3 Problem) returned by the library.
`ofWarning` is the value built by `check` from an authoring warning
(`Ok(vec![Box::new(warning)])`, main.rs line 171); `other` stands for the
opaque conformance problems produced by `Validator::validate`. -/
inductive ValidationProblem where
  | ofWarning (warning : SpecWarning)
  | other (id : Nat)
deriving DecidableEq, Repr

/-- Modelled from the spec: the fatal error taxonomy of the library crate
(§7).  `RuntimeError`, `Usage` and `PrescriptionError` are the constructors
used literally in main.rs; `IoError` models the `From` conversion applied by
the `?` operator to `io::Error` inside `get_file_contents`, and `ParseError`
the `From` conversion applied to the toml deserializer error in the
pharmacy branch of `run`. -/
inductive HowserError where
  | RuntimeError (msg : String)
  | Usage (msg : String)
  | PrescriptionError (warning : SpecWarning)
  | IoError (msg : String)
  | ParseError (msg : String)
deriving DecidableEq, Repr

/-- `HowserResult<T>` from howser::errors. -/
abbrev HowserResult (α : Type) : Type := Except HowserError α

/-- The reporter option built by `run`: `CLIOption::VerboseMode(bool)`. -/
inductive CLIOption where
  | VerboseMode (verbose : Bool)
deriving DecidableEq, Repr

/-- Modelled from the spec: the root node handle returned by doogie's
`parse_document`.  The glue only passes it through, so it just records the
source text it was parsed from. -/
structure DoogieRoot where
  source : String
deriving DecidableEq, Repr

/-- Modelled from the spec: a library `Document` (§3) — a parsed tree plus an
optional origin name. -/
structure Document where
  root : DoogieRoot
  origin : Option String
deriving DecidableEq, Repr

/-- Modelled from the spec: a library `Prescription` (§3) — a `Document`
whose directives passed the authoring check. -/
structure Prescription where
  document : Document
deriving DecidableEq, Repr

/-- A toml `Value` as used by the pharmacy branch: the glue only
distinguishes strings (via `as_str`) and tables (via `as_table`), so the
remaining scalar kinds are summarised by `integer` and `boolean`.  A table
is carried in its iteration order: toml 0.4 backs tables with a
`BTreeMap<String, Value>`, whose iteration is in ascending key order. -/
inductive TomlValue where
  | string (s : String)
  | integer (n : Int)
  | boolean (b : Bool)
  | table (entries : List (String × TomlValue))

/-- `Value::as_str`: `Some` exactly on string values. -/
def TomlValue.as_str : TomlValue → Option String
  | .string s => some s
  | _ => none

/-- Lookup of a key in a table's entry list (`BTreeMap::get`). -/
def tableLookup (key : String) : List (String × TomlValue) → Option TomlValue
  | [] => none
  | (k, v) :: rest => if k = key then some v else tableLookup key rest

/-- Indexing `value[key]` for toml values; `none` where the Rust `Index`
impl would panic (missing key or non-table). -/
def TomlValue.getKey : TomlValue → String → Option TomlValue
  | .table entries, key => tableLookup key entries
  | _, _ => none

/-- `Value::as_table`: `Some` exactly on tables, yielding the entry list in
`BTreeMap` iteration order. -/
def TomlValue.as_table : TomlValue → Option (List (String × TomlValue))
  | .table entries => some entries
  | _ => none

/-- Lexicographic order on character lists: the strict order underlying the
`Ord` instance of Rust `String` keys. -/
def charListLt : List Char → List Char → Bool
  | [], [] => false
  | [], _ :: _ => true
  | _ :: _, [] => false
  | a :: as, b :: bs => if a < b then true else if b < a then false else charListLt as bs

/-- Strict lexicographic order on strings, on their character lists. -/
def keyLt (a b : String) : Bool := charListLt a.data b.data

/-- The effect of `BTreeMap::insert` on the map's iteration order: the entry
list stays sorted by key ascending, and an equal key is replaced in place.
This is how the toml deserializer builds the `Specs` table, one entry at a
time in document order. -/
def btreeInsert (k : String) (v : TomlValue) : List (String × TomlValue) → List (String × TomlValue)
  | [] => [(k, v)]
  | (k', v') :: rest =>
    if keyLt k k' then (k, v) :: (k', v') :: rest
    else if k = k' then (k, v) :: rest
    else (k', v') :: btreeInsert k v rest

/-- Modelled from the spec: the environment of excluded collaborators used
by the CLI glue — the file system behind `File::open`/`read_to_string`,
doogie's `parse_document`, the library constructors `Document::new` and
`into_prescription`, the library `Validator::new(..).validate()`, and the
toml deserializer (§4, §6).  Each field is an arbitrary function, so the
theorems about the glue hold for every behavior of the excluded parts. -/
structure Env where
  readFile : String → Except String String
  parseDocument : String → DoogieRoot
  documentNew : DoogieRoot → Option String → HowserResult Document
  intoPrescription : Document → HowserResult Prescription
  validatorValidate : Prescription → Document → HowserResult (List ValidationProblem)
  parseToml : String → Except String TomlValue

/-- `get_file_contents` (main.rs lines 296-301): opens and reads the file,
converting the io error through the `?` operator. -/
def get_file_contents (env : Env) (file_name : String) : HowserResult String :=
  match env.readFile file_name with
  | Except.error e => Except.error (HowserError.IoError e)
  | Except.ok contents => Except.ok contents

/-- `validate` (main.rs lines 157-164): read and parse the prescription
source, read and parse the document source, construct both library
documents, promote the first to a prescription, and run the validator.
Every `?` failure propagates. -/
def validate (env : Env) (rx_name : String) (document_name : String) : HowserResult (List ValidationProblem) :=
  match get_file_contents env rx_name with
  | Except.error e => Except.error e
  | Except.ok rx_contents =>
    match get_file_contents env document_name with
    | Except.error e => Except.error e
    | Except.ok doc_contents =>
      let rx_root := env.parseDocument rx_contents
      let doc_root := env.parseDocument doc_contents
      match env.documentNew rx_root (some rx_name) with
      | Except.error e => Except.error e
      | Except.ok rx_document =>
        match env.intoPrescription rx_document with
        | Except.error e => Except.error e
        | Except.ok rx =>
          match env.documentNew doc_root (some document_name) with
          | Except.error e => Except.error e
          | Except.ok document => env.validatorValidate rx document

/-- `check` (main.rs lines 166-175): read and parse the prescription source,
construct the library document, then convert the `into_prescription` outcome:
success becomes the empty problem list, a `PrescriptionError` becomes a
one-element problem list, and every other error propagates. -/
def check (env : Env) (filename : String) : HowserResult (List ValidationProblem) :=
  match get_file_contents env filename with
  | Except.error e => Except.error e
  | Except.ok contents =>
    match env.documentNew (env.parseDocument contents) (some filename) with
    | Except.error e => Except.error e
    | Except.ok document =>
      match env.intoPrescription document with
      | Except.error (HowserError.PrescriptionError warning) =>
        Except.ok [ValidationProblem.ofWarning warning]
      | Except.error error => Except.error error
      | Except.ok _ => Except.ok []

/-- The loop body of `process_pharmacy_file` (main.rs lines 180-192), with
the mutable `report` vector made an explicit accumulator.  For each entry:
a non-string document value is a fatal `RuntimeError` (note the source
builds the message with `.to_string()` on the literal, so the placeholder
braces are left unformatted); otherwise the pair is validated, a `?` failure
propagates, and with the fail-early flag a non-empty problem list is
returned at once (`return Ok(problems)`), else appended to the report. -/
def processPharmacyGo (env : Env) (fail_early : Bool) : List (String × TomlValue) → List ValidationProblem → HowserResult (List ValidationProblem)
  | [], report => Except.ok report
  | (rx_file, doc_value) :: rest, report =>
    match doc_value.as_str with
    | none => Except.error (HowserError.RuntimeError ("The document corresponding to \x7b\x7d could not be parsed as a string."))
    | some doc_file =>
      match validate env rx_file doc_file with
      | Except.error e => Except.error e
      | Except.ok problems =>
        if fail_early && !problems.isEmpty then Except.ok problems
        else processPharmacyGo env fail_early rest (report ++ problems)

/-- `process_pharmacy_file` (main.rs lines 177-195).  The `spec_pairs`
argument is the `&BTreeMap<String, Value>` in its iteration order (ascending
key order), which is the order the `for` loop visits. -/
def process_pharmacy_file (env : Env) (spec_pairs : List (String × TomlValue)) (fail_early : Bool) : HowserResult (List ValidationProblem) :=
  processPharmacyGo env fail_early spec_pairs []

/-- The per-subcommand `ArgMatches` (`sub_m`) as read by `run`: the
`is_present`/`value_of` queries it makes on `sub_m`. -/
structure SubArgs where
  verbose : Bool
  pharmacy : Option String
  failEarly : Bool
  prescription : Option String
  document : Option String

/-- The top-level `ArgMatches` passed to `run`: the selected subcommand with
its matches, the top-level `value_of` lookup, and the usage string. -/
structure ArgMatches where
  subcommand : Option (String × SubArgs)
  topValue : String → Option String
  usage : String

/-- `run` (main.rs lines 40-87), up to the `(issues, options)` pair it
computes; the subsequent `make_cli_report` rendering and `println!` belong
to the excluded reporter.  Note that the `check` branch takes the filename
from `args.value_of("prescription")` and the pharmacy branch from
`args.value_of("pharmacy")` — the top-level matches, not `sub_m` (main.rs
lines 44 and 55).  The `Index` panic of `value["Specs"]` on a missing key
is modelled as a fatal `RuntimeError`. -/
def run (env : Env) (args : ArgMatches) : HowserResult (List ValidationProblem × List CLIOption) :=
  match args.subcommand with
  | some ("check", sub_m) =>
    let options := [CLIOption.VerboseMode sub_m.verbose]
    match args.topValue ("prescription") with
    | none => Except.error (HowserError.RuntimeError ("Error parsing prescription filename."))
    | some filename =>
      match check env filename with
      | Except.error e => Except.error e
      | Except.ok issues => Except.ok (issues, options)
  | some ("validate", sub_m) =>
    let options := [CLIOption.VerboseMode sub_m.verbose]
    if sub_m.pharmacy.isSome then
      let fail_early := sub_m.failEarly
      match args.topValue ("pharmacy") with
      | none => Except.error (HowserError.RuntimeError ("Pharmacy filename could not be parsed from the argument string."))
      | some filename =>
        match get_file_contents env filename with
        | Except.error e => Except.error e
        | Except.ok pharmacy_contents =>
          match env.parseToml pharmacy_contents with
          | Except.error msg => Except.error (HowserError.ParseError msg)
          | Except.ok value =>
            match value.getKey ("Specs") with
            | none => Except.error (HowserError.RuntimeError ("panic: no entry found for key Specs"))
            | some specs =>
              match specs.as_table with
              | none => Except.error (HowserError.RuntimeError ("Error parsing pharmacy file " ++ filename ++ "."))
              | some prescription_pairs =>
                match process_pharmacy_file env prescription_pairs fail_early with
                | Except.error e => Except.error e
                | Except.ok issues => Except.ok (issues, options)
    else
      match sub_m.prescription with
      | none => Except.error (HowserError.RuntimeError ("Unable to parse the name of the prescription file."))
      | some rx_name =>
        match sub_m.document with
        | none => Except.error (HowserError.RuntimeError ("Unable to parse the name of the document file."))
        | some document_name =>
          match validate env rx_name document_name with
          | Except.error e => Except.error e
          | Except.ok issues => Except.ok (issues, options)
  | _ => Except.error (HowserError.Usage args.usage)

/-- Modelled from the spec: the `std::error::Error` trait-object view of a
library error as used by `main` — a description plus an optional cause,
forming a finite chain (§7 propagation policy: a descriptive chain,
cause-by-cause, preserved for outer layers to print). -/
inductive ErrorObj where
  | base (descr : String)
  | withCause (descr : String) (cause : ErrorObj)
deriving DecidableEq, Repr

/-- `e.description()`. -/
def ErrorObj.description : ErrorObj → String
  | .base d => d
  | .withCause d _ => d

/-- `e.cause()`. -/
def ErrorObj.cause : ErrorObj → Option ErrorObj
  | .base _ => none
  | .withCause _ c => some c

/-- The `while let Some(error) = inner_err` loop of `main` (lines 30-33):
the descriptions printed after the outermost one, walking `cause` until the
chain is exhausted. -/
def causeLines : ErrorObj → List String
  | .base _ => []
  | .withCause _ c => c.description :: causeLines c

/-- All descriptions in an error chain, outermost first — what the
propagation-policy sentence of the spec says `main` prints. -/
def chainDescriptions : ErrorObj → List String
  | .base d => [d]
  | .withCause d c => d :: chainDescriptions c

/-- The observable outcome of one process run: the exit code and the error
lines printed by `main` on the fatal path. -/
structure ProcessOutcome where
  exitCode : Nat
  errorLines : List String
deriving DecidableEq, Repr

/-- `main` (main.rs lines 21-38): run; on `Err(e)` print `e.description()`
and then every description in the cause chain and exit 1; on `Ok` exit 0
(the report itself was printed inside `run`).  `errView` is the
`std::error::Error` view of the library error type, which lives in the
excluded library crate. -/
def mainModel (env : Env) (errView : HowserError → ErrorObj) (args : ArgMatches) : ProcessOutcome :=
  match run env args with
  | Except.error e =>
    let eo := errView e
    { exitCode := 1, errorLines := eo.description :: causeLines eo }
  | Except.ok _ => { exitCode := 0, errorLines := [] }

/-- The clap matches produced by the invocation `howser check PRESCRIPTION
[-v]`: `make_app` declares the `prescription` and `verbose` arguments on the
`check` subcommand and declares no value arguments at the top level, and
clap 2 stores a subcommand's argument values only in that subcommand's
matches (the repo's own tests read `prescription` from `sub_m`, main.rs
line 215), so every top-level `value_of` lookup yields `none`. -/
def checkCmdMatches (filename : String) (verbose : Bool) : ArgMatches :=
  { subcommand := some ("check",
      { verbose := verbose, pharmacy := none, failEarly := false,
        prescription := some filename, document := none }),
    topValue := fun _ => none,
    usage := "howser [SUBCOMMAND]" }

/-- The clap matches produced by the invocation `howser validate --pharmacy
FILE [-e] [-v]`: as with `checkCmdMatches`, the `pharmacy` value is stored
on the `validate` subcommand's matches and the top level holds no values. -/
def pharmacyCmdMatches (filename : String) (failEarly : Bool) (verbose : Bool) : ArgMatches :=
  { subcommand := some ("validate",
      { verbose := verbose, pharmacy := some filename, failEarly := failEarly,
        prescription := none, document := none }),
    topValue := fun _ => none,
    usage := "howser [SUBCOMMAND]" }

/-- An `ArgMatches` with no subcommand selected, as `run` would receive it;
drives `run` into its `Usage` branch. -/
def noCmdMatches : ArgMatches :=
  { subcommand := none, topValue := fun _ => none, usage := "usage text" }

/-- Concrete environment builder for witnesses: every file reads according
to `read`, parsing is the identity wrapper, document construction always
succeeds and records the origin, `into_prescription` behaves as `pres`, and
the validator returns `valf` of the prescription's origin name. -/
def mkEnv (read : String → Except String String)
    (pres : Document → HowserResult Prescription)
    (valf : Option String → HowserResult (List ValidationProblem)) : Env :=
  { readFile := read,
    parseDocument := fun s => { source := s },
    documentNew := fun r o => Except.ok { root := r, origin := o },
    intoPrescription := pres,
    validatorValidate := fun rx _ => valf rx.document.origin,
    parseToml := fun _ => Except.error ("") }

/-- A benign environment: every read succeeds, every construction succeeds,
the validator always reports no problems. -/
def okEnv : Env :=
  mkEnv (fun _ => Except.ok ("")) (fun d => Except.ok { document := d }) (fun _ => Except.ok [])

/-- Environment for the batch-order counterexample: everything succeeds and
the validator reports problem 1 for the prescription named a.rx and
problem 2 for every other prescription. -/
def cexEnv : Env :=
  mkEnv (fun _ => Except.ok (""))
    (fun d => Except.ok { document := d })
    (fun o => if o = some ("a.rx") then Except.ok [ValidationProblem.other 1]
              else Except.ok [ValidationProblem.other 2])

/-- Environment for the fail-early witness: the validator reports nothing
for the prescription named a.rx and problem 5 for every other one. -/
def env4 : Env :=
  mkEnv (fun _ => Except.ok (""))
    (fun d => Except.ok { document := d })
    (fun o => if o = some ("a.rx") then Except.ok []
              else Except.ok [ValidationProblem.other 5])

/-- Environment for the check witness: `into_prescription` always fails with
an authoring warning. -/
def env5 : Env :=
  mkEnv (fun _ => Except.ok (""))
    (fun _ => Except.error (HowserError.PrescriptionError { info := "misplaced directive" }))
    (fun _ => Except.ok [])

/-- Environment for the partial-report witness: the file missing.md does not
exist, and the validator reports problem 9 for the prescription named a.rx
and nothing otherwise. -/
def env10 : Env :=
  mkEnv (fun n => if n = "missing.md" then Except.error ("No such file or directory") else Except.ok (""))
    (fun d => Except.ok { document := d })
    (fun o => if o = some ("a.rx") then Except.ok [ValidationProblem.other 9]
              else Except.ok [])

/-- A fixed error view for the `main` witnesses: every library error renders
as an outer description with one inner cause. -/
def errV : HowserError → ErrorObj :=
  fun _ => ErrorObj.withCause ("outer failure") (ErrorObj.base ("root cause"))

/-- What the batch claim predicts for a run without the fail-early flag: the
concatenation of each pair's Problems in the order the pair list is given
(empty where a pair would not validate). -/
def specBatchConcat (env : Env) : List (String × TomlValue) → List ValidationProblem
  | [] => []
  | (rx_file, doc_value) :: rest =>
    (match doc_value.as_str with
     | some doc_file =>
       match validate env rx_file doc_file with
       | Except.ok problems => problems
       | Except.error _ => []
     | none => []) ++ specBatchConcat env rest

theorem processPharmacyGo_all_ok (env : Env) (pairs : List (String × TomlValue)) :
    ∀ report : List ValidationProblem,
      (∀ q ∈ pairs, ∃ s problems, q.2 = TomlValue.string s ∧ validate env q.1 s = Except.ok problems) →
      processPharmacyGo env false pairs report = Except.ok (report ++ specBatchConcat env pairs) := by
  induction pairs with
  | nil => intro report h; simp [processPharmacyGo, specBatchConcat]
  | cons q rest ih =>
    intro report h
    obtain ⟨k, v⟩ := q
    obtain ⟨s, problems, hv, hval⟩ := h (k, v) (List.mem_cons_self _ _)
    subst hv
    have h' : ∀ q ∈ rest, ∃ s problems, q.2 = TomlValue.string s ∧ validate env q.1 s = Except.ok problems :=
      fun q hq => h q (List.mem_cons_of_mem _ hq)
    have step : processPharmacyGo env false ((k, TomlValue.string s) :: rest) report
        = processPharmacyGo env false rest (report ++ problems) := by
      simp [processPharmacyGo, TomlValue.as_str, hval]
    rw [step, ih (report ++ problems) h']
    simp [specBatchConcat, TomlValue.as_str, hval, List.append_assoc]

theorem processPharmacyGo_fail_early (env : Env) (pre : List (String × TomlValue))
    (k s : String) (problems : List ValidationProblem) (post : List (String × TomlValue)) :
    ∀ report : List ValidationProblem,
      (∀ q ∈ pre, ∃ t, q.2 = TomlValue.string t ∧ validate env q.1 t = Except.ok []) →
      validate env k s = Except.ok problems → problems ≠ [] →
      processPharmacyGo env true (pre ++ (k, TomlValue.string s) :: post) report = Except.ok problems := by
  induction pre with
  | nil =>
    intro report _ hval hne
    cases problems with
    | nil => exact absurd rfl hne
    | cons p ps => simp [processPharmacyGo, TomlValue.as_str, hval]
  | cons q rest ih =>
    intro report h hval hne
    obtain ⟨a, b⟩ := q
    obtain ⟨t, hb, hv⟩ := h (a, b) (List.mem_cons_self _ _)
    subst hb
    have step : processPharmacyGo env true (((a, TomlValue.string t) :: rest) ++ (k, TomlValue.string s) :: post) report
        = processPharmacyGo env true (rest ++ (k, TomlValue.string s) :: post) (report ++ []) := by
      simp [processPharmacyGo, TomlValue.as_str, hv]
    rw [step]
    exact ih (report ++ []) (fun q hq => h q (List.mem_cons_of_mem _ hq)) hval hne

theorem processPharmacyGo_nonstring (env : Env) (fail_early : Bool) (pre : List (String × TomlValue))
    (k : String) (v : TomlValue) (post : List (String × TomlValue)) :
    ∀ report : List ValidationProblem,
      (∀ q ∈ pre, ∃ t, q.2 = TomlValue.string t ∧ validate env q.1 t = Except.ok []) →
      v.as_str = none →
      processPharmacyGo env fail_early (pre ++ (k, v) :: post) report
        = Except.error (HowserError.RuntimeError ("The document corresponding to \x7b\x7d could not be parsed as a string.")) := by
  induction pre with
  | nil => intro report _ hv; simp [processPharmacyGo, hv]
  | cons q rest ih =>
    intro report h hv
    obtain ⟨a, b⟩ := q
    obtain ⟨t, hb, hval⟩ := h (a, b) (List.mem_cons_self _ _)
    subst hb
    have step : processPharmacyGo env fail_early (((a, TomlValue.string t) :: rest) ++ (k, v) :: post) report
        = processPharmacyGo env fail_early (rest ++ (k, v) :: post) (report ++ []) := by
      simp [processPharmacyGo, TomlValue.as_str, hval]
    rw [step]
    exact ih (report ++ []) (fun q hq => h q (List.mem_cons_of_mem _ hq)) hv

theorem processPharmacyGo_error (env : Env) (pre : List (String × TomlValue))
    (k s : String) (e : HowserError) (post : List (String × TomlValue)) :
    ∀ report : List ValidationProblem,
      (∀ q ∈ pre, ∃ t problems, q.2 = TomlValue.string t ∧ validate env q.1 t = Except.ok problems) →
      validate env k s = Except.error e →
      processPharmacyGo env false (pre ++ (k, TomlValue.string s) :: post) report = Except.error e := by
  induction pre with
  | nil => intro report _ hval; simp [processPharmacyGo, TomlValue.as_str, hval]
  | cons q rest ih =>
    intro report h hval
    obtain ⟨a, b⟩ := q
    obtain ⟨t, problems, hb, hv⟩ := h (a, b) (List.mem_cons_self _ _)
    subst hb
    have step : processPharmacyGo env false (((a, TomlValue.string t) :: rest) ++ (k, TomlValue.string s) :: post) report
        = processPharmacyGo env false (rest ++ (k, TomlValue.string s) :: post) (report ++ problems) := by
      simp [processPharmacyGo, TomlValue.as_str, hv]
    rw [step]
    exact ih (report ++ problems) (fun q hq => h q (List.mem_cons_of_mem _ hq)) hval

theorem description_cons_causeLines (e : ErrorObj) :
    e.description :: causeLines e = chainDescriptions e := by
  induction e with
  | base d => rfl
  | withCause d c ih =>
    show d :: (c.description :: causeLines c) = d :: chainDescriptions c
    rw [ih]

/-- C1: the claim says that for every `check` invocation with a PRESCRIPTION
filename, `run` obtains that filename from the parsed arguments and returns
the result of `check` on it.  On the code this fails: line 44 looks the
filename up on the top-level matches (`args.value_of`), but `make_app`
declares `prescription` on the `check` subcommand, where clap stores its
value (the repo's own tests read it from `sub_m`, line 215).  So for every
environment the lookup yields none and `run` returns the fatal
RuntimeError instead — even though `check` itself succeeds on the same
filename in the benign environment. -/
theorem run_check_subcommand_always_errors (env : Env) (filename : String) (verbose : Bool) :
    run env (checkCmdMatches filename verbose)
      = Except.error (HowserError.RuntimeError ("Error parsing prescription filename."))
    ∧ check okEnv filename = Except.ok [] :=
  ⟨rfl, rfl⟩

/-- C2: the claim says that for every `validate --pharmacy FILE` invocation,
`run` reads FILE, parses its Specs table and returns the result of
`process_pharmacy_file` on it.  On the code this fails: line 55 looks the
pharmacy filename up on the top-level matches (`args.value_of`), but
`make_app` declares `pharmacy` on the `validate` subcommand, where clap
stores its value.  So for every environment the lookup yields none and
`run` returns the fatal RuntimeError before reading any file. -/
theorem run_pharmacy_option_always_errors (env : Env) (filename : String) (failEarly verbose : Bool) :
    run env (pharmacyCmdMatches filename failEarly verbose)
      = Except.error (HowserError.RuntimeError ("Pharmacy filename could not be parsed from the argument string.")) :=
  rfl

/-- Counterexample to C3 as stated: batch order is not the insertion order
of the table representation.  Inserting the pair for b.rx first and the
pair for a.rx second into the `BTreeMap`-backed table yields the iteration
order a.rx before b.rx; a.rx validates to problem 1 and b.rx to problem 2,
and `process_pharmacy_file` returns [1, 2] — the sorted-key order — while
the insertion-order concatenation the claim predicts would be [2, 1],
a different list. -/
theorem pharmacy_batch_not_insertion_order :
    btreeInsert ("a.rx") (TomlValue.string ("a.md")) (btreeInsert ("b.rx") (TomlValue.string ("b.md")) [])
      = [("a.rx", TomlValue.string ("a.md")), ("b.rx", TomlValue.string ("b.md"))]
    ∧ validate cexEnv ("a.rx") ("a.md") = Except.ok [ValidationProblem.other 1]
    ∧ validate cexEnv ("b.rx") ("b.md") = Except.ok [ValidationProblem.other 2]
    ∧ process_pharmacy_file cexEnv [("a.rx", TomlValue.string ("a.md")), ("b.rx", TomlValue.string ("b.md"))] false
      = Except.ok [ValidationProblem.other 1, ValidationProblem.other 2]
    ∧ [ValidationProblem.other 1, ValidationProblem.other 2]
      ≠ [ValidationProblem.other 2, ValidationProblem.other 1] :=
  ⟨rfl, rfl, rfl, rfl, by decide⟩

/-- C3 (amended): for every pharmacy batch run without the fail-fast flag in
which every entry carries a string document name and every pair validates
without a fatal error, every pair is validated and the returned list is the
concatenation of each pair's Problems in batch order — where batch order is
the iteration order of the `BTreeMap` table (ascending key order), not in
general its insertion order. -/
theorem process_pharmacy_concatenates_in_iteration_order (env : Env) (pairs : List (String × TomlValue))
    (h : ∀ q ∈ pairs, ∃ s problems, q.2 = TomlValue.string s ∧ validate env q.1 s = Except.ok problems) :
    process_pharmacy_file env pairs false = Except.ok (specBatchConcat env pairs) :=
  processPharmacyGo_all_ok env pairs [] h

/-- Witness for the amended C3: the two-pair batch of the counterexample,
processed without the fail-fast flag, returns the concatenation of the two
pairs' problem lists in iteration order. -/
theorem process_pharmacy_concatenates_witness :
    process_pharmacy_file cexEnv [("a.rx", TomlValue.string ("a.md")), ("b.rx", TomlValue.string ("b.md"))] false
      = Except.ok (specBatchConcat cexEnv [("a.rx", TomlValue.string ("a.md")), ("b.rx", TomlValue.string ("b.md"))]) :=
  process_pharmacy_concatenates_in_iteration_order cexEnv
    [("a.rx", TomlValue.string ("a.md")), ("b.rx", TomlValue.string ("b.md"))]
    (by
      intro q hq
      simp only [List.mem_cons, List.mem_singleton] at hq
      rcases hq with hq | hq | hq
      · subst hq; exact ⟨"a.md", [ValidationProblem.other 1], rfl, rfl⟩
      · subst hq; exact ⟨"b.md", [ValidationProblem.other 2], rfl, rfl⟩
      · cases hq)

/-- C4: for every pharmacy batch run with the fail-fast flag, if every pair
before some entry validates with an empty problem list and that entry's
pair validates with a non-empty problem list, `process_pharmacy_file`
returns exactly that pair's problems, whatever pairs follow — they are
neither validated nor reported. -/
theorem process_pharmacy_fail_early_returns_first_nonempty (env : Env) (pre : List (String × TomlValue))
    (k s : String) (problems : List ValidationProblem) (post : List (String × TomlValue))
    (hpre : ∀ q ∈ pre, ∃ t, q.2 = TomlValue.string t ∧ validate env q.1 t = Except.ok [])
    (hval : validate env k s = Except.ok problems) (hne : problems ≠ []) :
    process_pharmacy_file env (pre ++ (k, TomlValue.string s) :: post) true = Except.ok problems :=
  processPharmacyGo_fail_early env pre k s problems post [] hpre hval hne

/-- Witness for C4: in a three-pair batch where a.rx validates cleanly,
b.rx yields problem 5 and the third entry is malformed (an integer
document value that would be a fatal error if reached), the fail-early run
returns exactly problem 5. -/
theorem process_pharmacy_fail_early_witness :
    process_pharmacy_file env4
      [("a.rx", TomlValue.string ("a.md")), ("b.rx", TomlValue.string ("b.md")), ("c.rx", TomlValue.integer 3)] true
      = Except.ok [ValidationProblem.other 5] :=
  process_pharmacy_fail_early_returns_first_nonempty env4
    [("a.rx", TomlValue.string ("a.md"))] ("b.rx") ("b.md") [ValidationProblem.other 5]
    [("c.rx", TomlValue.integer 3)]
    (by
      intro q hq
      simp only [List.mem_singleton] at hq
      subst hq
      exact ⟨"a.md", rfl, rfl⟩)
    rfl (by decide)

/-- C5: `check` returns the empty list when `into_prescription` succeeds,
a one-element list holding the authoring warning when it fails with a
`PrescriptionError`, and propagates every other failure — a read failure, a
construction failure, or any non-prescription `into_prescription` error —
as a fatal error rather than a Problem list. -/
theorem check_outcome_matches_into_prescription (env : Env) (filename : String) :
    (∀ contents document rx,
        get_file_contents env filename = Except.ok contents →
        env.documentNew (env.parseDocument contents) (some filename) = Except.ok document →
        env.intoPrescription document = Except.ok rx →
        check env filename = Except.ok [])
    ∧ (∀ contents document warning,
        get_file_contents env filename = Except.ok contents →
        env.documentNew (env.parseDocument contents) (some filename) = Except.ok document →
        env.intoPrescription document = Except.error (HowserError.PrescriptionError warning) →
        check env filename = Except.ok [ValidationProblem.ofWarning warning])
    ∧ (∀ contents document e,
        get_file_contents env filename = Except.ok contents →
        env.documentNew (env.parseDocument contents) (some filename) = Except.ok document →
        env.intoPrescription document = Except.error e →
        (∀ warning, e ≠ HowserError.PrescriptionError warning) →
        check env filename = Except.error e)
    ∧ (∀ e, get_file_contents env filename = Except.error e → check env filename = Except.error e)
    ∧ (∀ contents e,
        get_file_contents env filename = Except.ok contents →
        env.documentNew (env.parseDocument contents) (some filename) = Except.error e →
        check env filename = Except.error e) := by
  refine ⟨?_, ?_, ?_, ?_, ?_⟩
  · intro contents document rx h1 h2 h3
    simp [check, h1, h2, h3]
  · intro contents document warning h1 h2 h3
    simp [check, h1, h2, h3]
  · intro contents document e h1 h2 h3 hne
    cases e with
    | RuntimeError m => simp [check, h1, h2, h3]
    | Usage m => simp [check, h1, h2, h3]
    | PrescriptionError w => exact absurd rfl (hne w)
    | IoError m => simp [check, h1, h2, h3]
    | ParseError m => simp [check, h1, h2, h3]
  · intro e h1
    simp [check, h1]
  · intro contents e h1 h2
    simp [check, h1, h2]

/-- Witness for C5: in the environment whose `into_prescription` always
fails with an authoring warning, `check` returns that warning as a
one-element problem list. -/
theorem check_outcome_witness :
    check env5 ("template.rx") = Except.ok [ValidationProblem.ofWarning { info := "misplaced directive" }] :=
  (check_outcome_matches_into_prescription env5 ("template.rx")).2.1 ("")
    { root := { source := "" }, origin := some ("template.rx") }
    { info := "misplaced directive" } rfl rfl rfl

/-- C6: a pharmacy batch entry whose document value is not a string is a
fatal RuntimeError when the loop reaches it (all earlier pairs validating
cleanly), for either setting of the fail-early flag — the malformed entry
is never silently skipped. -/
theorem process_pharmacy_nonstring_entry_is_fatal (env : Env) (fail_early : Bool)
    (pre : List (String × TomlValue)) (k : String) (v : TomlValue) (post : List (String × TomlValue))
    (hpre : ∀ q ∈ pre, ∃ t, q.2 = TomlValue.string t ∧ validate env q.1 t = Except.ok [])
    (hv : v.as_str = none) :
    process_pharmacy_file env (pre ++ (k, v) :: post) fail_early
      = Except.error (HowserError.RuntimeError ("The document corresponding to \x7b\x7d could not be parsed as a string.")) :=
  processPharmacyGo_nonstring env fail_early pre k v post [] hpre hv

/-- Witness for C6: a batch whose second entry carries an integer document
value fails with the RuntimeError once the first pair has validated. -/
theorem process_pharmacy_nonstring_entry_witness :
    process_pharmacy_file okEnv [("a.rx", TomlValue.string ("a.md")), ("b.rx", TomlValue.integer 7)] false
      = Except.error (HowserError.RuntimeError ("The document corresponding to \x7b\x7d could not be parsed as a string.")) :=
  process_pharmacy_nonstring_entry_is_fatal okEnv false
    [("a.rx", TomlValue.string ("a.md"))] ("b.rx") (TomlValue.integer 7) []
    (by
      intro q hq
      simp only [List.mem_singleton] at hq
      subst hq
      exact ⟨"a.md", rfl, rfl⟩)
    rfl

/-- C7: the process exits with code zero exactly when `run` returns without
a fatal error — whatever problem list it computed — and every fatal error
from `run` gives exit code one. -/
theorem exit_code_zero_iff_run_ok (env : Env) (errView : HowserError → ErrorObj) (args : ArgMatches) :
    ((mainModel env errView args).exitCode = 0 ↔ ∃ result, run env args = Except.ok result)
    ∧ (∀ e, run env args = Except.error e → (mainModel env errView args).exitCode = 1) := by
  constructor
  · constructor
    · intro h
      cases hr : run env args with
      | error e => simp [mainModel, hr] at h
      | ok r => exact ⟨r, rfl⟩
    · rintro ⟨r, hr⟩
      simp [mainModel, hr]
  · intro e hr
    simp [mainModel, hr]

/-- Witness for C7: an invocation with no subcommand makes `run` fail with
the usage error, and the process exit code is one. -/
theorem exit_code_witness :
    (mainModel okEnv errV noCmdMatches).exitCode = 1 :=
  (exit_code_zero_iff_run_ok okEnv errV noCmdMatches).2 (HowserError.Usage ("usage text")) rfl

/-- C8: on any fatal error from `run`, `main` prints the error's description
followed by the description of every error in its cause chain, outermost
first, until the chain is exhausted. -/
theorem main_prints_full_cause_chain (env : Env) (errView : HowserError → ErrorObj) (args : ArgMatches)
    (e : HowserError) (h : run env args = Except.error e) :
    (mainModel env errView args).errorLines = chainDescriptions (errView e) := by
  simp [mainModel, h, description_cons_causeLines]

/-- Witness for C8: with the two-element error view, the usage failure
prints the outer description and then its single cause. -/
theorem main_prints_cause_chain_witness :
    (mainModel okEnv errV noCmdMatches).errorLines = ["outer failure", "root cause"] := by
  rw [main_prints_full_cause_chain okEnv errV noCmdMatches (HowserError.Usage ("usage text")) rfl]
  rfl

/-- C9: an authoring error raised by `into_prescription` on the prescription
propagates out of `validate` as a fatal `Err` and is never an entry of a
returned problem list, while on the same inputs the `check` path converts
it into a one-element problem list. -/
theorem validate_propagates_authoring_error (env : Env) (rx_name document_name : String)
    (c1 c2 : String) (d : Document) (warning : SpecWarning)
    (h1 : get_file_contents env rx_name = Except.ok c1)
    (h2 : get_file_contents env document_name = Except.ok c2)
    (h3 : env.documentNew (env.parseDocument c1) (some rx_name) = Except.ok d)
    (h4 : env.intoPrescription d = Except.error (HowserError.PrescriptionError warning)) :
    validate env rx_name document_name = Except.error (HowserError.PrescriptionError warning)
    ∧ check env rx_name = Except.ok [ValidationProblem.ofWarning warning] := by
  constructor
  · simp [validate, h1, h2, h3, h4]
  · simp [check, h1, h3, h4]

/-- Witness for C9: in the environment whose `into_prescription` always
fails with an authoring warning, `validate` fails with the prescription
error as a fatal error. -/
theorem validate_propagates_authoring_error_witness :
    validate env5 ("a.rx") ("a.md") = Except.error (HowserError.PrescriptionError { info := "misplaced directive" }) :=
  (validate_propagates_authoring_error env5 ("a.rx") ("a.md") ("") ("")
    { root := { source := "" }, origin := some ("a.rx") } { info := "misplaced directive" }
    rfl rfl rfl rfl).1

/-- C10: if some pair of a pharmacy batch fails with a fatal error, the
whole `process_pharmacy_file` run (without the fail-early flag) returns
that error, and the problems already collected from the earlier pairs are
discarded — the result is never a partial problem list together with an
error. -/
theorem process_pharmacy_error_discards_partial_report (env : Env) (pre : List (String × TomlValue))
    (k s : String) (e : HowserError) (post : List (String × TomlValue))
    (hpre : ∀ q ∈ pre, ∃ t problems, q.2 = TomlValue.string t ∧ validate env q.1 t = Except.ok problems)
    (hval : validate env k s = Except.error e) :
    process_pharmacy_file env (pre ++ (k, TomlValue.string s) :: post) false = Except.error e :=
  processPharmacyGo_error env pre k s e post [] hpre hval

/-- Witness for C10: the first pair collects problem 9, the second pair
points at a missing document file, and the whole batch returns the io
error with the collected problem discarded. -/
theorem process_pharmacy_error_discards_witness :
    process_pharmacy_file env10
      [("a.rx", TomlValue.string ("a.md")), ("b.rx", TomlValue.string ("missing.md"))] false
      = Except.error (HowserError.IoError ("No such file or directory")) :=
  process_pharmacy_error_discards_partial_report env10
    [("a.rx", TomlValue.string ("a.md"))] ("b.rx") ("missing.md")
    (HowserError.IoError ("No such file or directory")) []
    (by
      intro q hq
      simp only [List.mem_singleton] at hq
      subst hq
      exact ⟨"a.md", [ValidationProblem.other 9], rfl, rfl⟩)
    rfl
